import Mathlib

/-!
Verification of the miden-name-service backend (`src/backend/src/`).

Shallow embedding conventions:
* A Rust `String` / `&str` is modelled as a `Str := List Nat` of Unicode scalar
  values (each scalar satisfies `ScalarOk`, as guaranteed by Rust's `char`).
* A byte buffer (`&[u8]`, `Vec<u8>`) is a `List Nat` of values `< 256`.
* A Miden `Felt` is a `Nat`; `Felt::new` reduces modulo the Miden prime
  `feltP = 2^64 - 2^32 + 1` and `Felt::as_int` yields the canonical value.
* A Miden `Word` (4 field elements) is a `List Nat` of length 4.
* Panics (the `assert!` in `str_to_word`) are modelled as `Option.none`.
-/

/-- A Unicode scalar value, as carried by a Rust `char`:
codepoints below the surrogate range or above it, below `0x110000`. -/
def ScalarOk (n : Nat) : Prop := n < 0xD800 ∨ (0xE000 ≤ n ∧ n < 0x110000)

/-- A Rust string, as its list of Unicode scalar values. -/
abbrev Str := List Nat

instance (n : Nat) : Decidable (ScalarOk n) := by
  unfold ScalarOk; infer_instance

/-- A well-formed string: every element is a Unicode scalar value. -/
def WFStr (s : Str) : Prop := ∀ v ∈ s, ScalarOk v

instance (s : Str) : Decidable (WFStr s) := by
  unfold WFStr; exact List.decidableBAll _ s

/-- Conversion from a Lean string literal to the scalar-value model
(used to embed the Rust string literals of the source). -/
def strOf (s : String) : Str := s.data.map Char.toNat

/-- UTF-8 encoding of one Unicode scalar value (Rust `str::as_bytes`
produces exactly this encoding, scalar by scalar). -/
def utf8EncodeChar (n : Nat) : List Nat :=
  if n < 0x80 then [n]
  else if n < 0x800 then [0xC0 + n / 64, 0x80 + n % 64]
  else if n < 0x10000 then [0xE0 + n / 4096, 0x80 + n / 64 % 64, 0x80 + n % 64]
  else [0xF0 + n / 262144, 0x80 + n / 4096 % 64, 0x80 + n / 64 % 64, 0x80 + n % 64]

/-- The UTF-8 byte sequence of a string (`s.as_bytes()` in the source). -/
def strBytes (s : Str) : List Nat := s.flatMap utf8EncodeChar

/-- The UTF-8 byte length of a string. -/
def byteLen (s : Str) : Nat := (strBytes s).length

/-- First-continuation-byte constraint of a three-byte UTF-8 sequence with
lead byte `b` (Rust `core::str` validation: `0xE0` needs `A0..BF`,
`0xED` needs `80..9F`, the rest need `80..BF`). -/
def cont3ok (b b1 : Nat) : Prop :=
  (b = 0xE0 ∧ 0xA0 ≤ b1 ∧ b1 ≤ 0xBF) ∨
  (b = 0xED ∧ 0x80 ≤ b1 ∧ b1 ≤ 0x9F) ∨
  (b ≠ 0xE0 ∧ b ≠ 0xED ∧ 0x80 ≤ b1 ∧ b1 ≤ 0xBF)

instance (b b1 : Nat) : Decidable (cont3ok b b1) := by
  unfold cont3ok; infer_instance

/-- First-continuation-byte constraint of a four-byte UTF-8 sequence with
lead byte `b` (`0xF0` needs `90..BF`, `0xF4` needs `80..8F`). -/
def cont4ok (b b1 : Nat) : Prop :=
  (b = 0xF0 ∧ 0x90 ≤ b1 ∧ b1 ≤ 0xBF) ∨
  (b = 0xF4 ∧ 0x80 ≤ b1 ∧ b1 ≤ 0x8F) ∨
  (b ≠ 0xF0 ∧ b ≠ 0xF4 ∧ 0x80 ≤ b1 ∧ b1 ≤ 0xBF)

instance (b b1 : Nat) : Decidable (cont4ok b b1) := by
  unfold cont4ok; infer_instance

/-- Decode one UTF-8 sequence whose lead byte is `b` and whose following
bytes are `rest`: the decoded scalar value and how many bytes of `rest` the
sequence consumed. `none` on a malformed or truncated sequence, following
Rust's `core::str` validation table. -/
def utf8Decode1 (b : Nat) (rest : List Nat) : Option (Nat × Nat) :=
  if b < 0x80 then some (b, 0)
  else if 0xC2 ≤ b ∧ b ≤ 0xDF then
    match rest with
    | b1 :: _ =>
      if 0x80 ≤ b1 ∧ b1 ≤ 0xBF then some ((b - 0xC0) * 64 + (b1 - 0x80), 1) else none
    | [] => none
  else if 0xE0 ≤ b ∧ b ≤ 0xEF then
    match rest with
    | b1 :: b2 :: _ =>
      if cont3ok b b1 ∧ 0x80 ≤ b2 ∧ b2 ≤ 0xBF then
        some ((b - 0xE0) * 4096 + (b1 - 0x80) * 64 + (b2 - 0x80), 2)
      else none
    | _ => none
  else if 0xF0 ≤ b ∧ b ≤ 0xF4 then
    match rest with
    | b1 :: b2 :: b3 :: _ =>
      if cont4ok b b1 ∧ 0x80 ≤ b2 ∧ b2 ≤ 0xBF ∧ 0x80 ≤ b3 ∧ b3 ≤ 0xBF then
        some ((b - 0xF0) * 262144 + (b1 - 0x80) * 4096 + (b2 - 0x80) * 64 + (b3 - 0x80), 3)
      else none
    | _ => none
  else none

/-- How many bytes of `rest` belong to the maximal invalid subpart when the
sequence led by `b` fails to decode (Rust's `Utf8Error::error_len`, minus
the lead byte): those bytes are skipped together with `b` before the
replacement character is emitted. -/
def utf8ErrExtra (b : Nat) (rest : List Nat) : Nat :=
  if 0xE0 ≤ b ∧ b ≤ 0xEF then
    match rest with
    | b1 :: _ => if cont3ok b b1 then 1 else 0
    | [] => 0
  else if 0xF0 ≤ b ∧ b ≤ 0xF4 then
    match rest with
    | b1 :: b2 :: _ =>
      if cont4ok b b1 then (if 0x80 ≤ b2 ∧ b2 ≤ 0xBF then 2 else 1) else 0
    | [b1] => if cont4ok b b1 then 1 else 0
    | [] => 0
  else 0

/-- Strict UTF-8 decoding (`String::from_utf8`): all scalar values, or
`none` if any sequence is malformed or truncated. -/
def utf8DecodeStrict : List Nat → Option (List Nat)
  | [] => some []
  | b :: rest =>
    match utf8Decode1 b rest with
    | some (c, k) => (utf8DecodeStrict (rest.drop k)).map (fun cs => c :: cs)
    | none => none
termination_by l => l.length
decreasing_by simp; omega

/-- Lossy UTF-8 decoding (`String::from_utf8_lossy`): each maximal invalid
subpart becomes one replacement character U+FFFD. -/
def utf8Lossy : List Nat → List Nat
  | [] => []
  | b :: rest =>
    match utf8Decode1 b rest with
    | some (c, k) => c :: utf8Lossy (rest.drop k)
    | none => 0xFFFD :: utf8Lossy (rest.drop (utf8ErrExtra b rest))
termination_by l => l.length
decreasing_by all_goals simp; omega

example : utf8DecodeStrict [0x61, 0xC3, 0xA9] = some [0x61, 0xE9] := by
  simp [utf8DecodeStrict, utf8Decode1]
example : utf8DecodeStrict [0x80] = none := by
  simp [utf8DecodeStrict, utf8Decode1]
example : utf8Lossy [0x61, 0x80, 0x62] = [0x61, 0xFFFD, 0x62] := by
  simp [utf8Lossy, utf8Decode1, utf8ErrExtra]
example : strBytes (strOf "héllo") = [0x68, 0xC3, 0xA9, 0x6C, 0x6C, 0x6F] := by decide

/-- The Miden field prime `2^64 - 2^32 + 1`. -/
def feltP : Nat := 18446744069414584321

/-- `Felt::new`: reduce a `u64` value into the field. -/
def feltNew (v : Nat) : Nat := v % feltP

/-- `Felt::as_int`: the canonical integer value of a field element. -/
def feltAsInt (v : Nat) : Nat := v % feltP

/-- `u64::from_be_bytes` on an 8-byte chunk. -/
def u64FromBe (bs : List Nat) : Nat := bs.foldl (fun a b => a * 256 + b) 0

/-- `u64::to_be_bytes` of a value below `2^64`. -/
def u64ToBe (v : Nat) : List Nat :=
  [v / 72057594037927936 % 256, v / 281474976710656 % 256, v / 1099511627776 % 256,
   v / 4294967296 % 256, v / 16777216 % 256, v / 65536 % 256, v / 256 % 256, v % 256]

/-- A Miden `Word`: 4 field elements (length-4 list where constructed). -/
abbrev Word := List Nat

/-- `serde.rs::str_to_word`: pad the UTF-8 bytes of `s` to a 32-byte buffer
whose final byte holds the byte length, then pack 4 big-endian 8-byte chunks
into field elements. The `assert!(bytes.len() <= 24)` panic is `none`. -/
def str_to_word (s : Str) : Option Word :=
  let bytes := strBytes s
  if bytes.length ≤ 24 then
    let padded := bytes ++ List.replicate (31 - bytes.length) 0 ++ [bytes.length % 256]
    some ((List.range 4).map fun i => feltNew (u64FromBe ((padded.drop (i * 8)).take 8)))
  else none

/-- The truncated byte content of a word in `serde.rs::word_to_str`: read the
length from the last byte of the 4th field element, lay out all 32 bytes in
field order, truncate to that length. -/
def truncBytes (w : Word) : List Nat :=
  let len := (u64ToBe (feltAsInt (w.getD 3 0))).getD 7 0
  (((List.range 4).flatMap fun i => u64ToBe (feltAsInt (w.getD i 0)))).take len

/-- `serde.rs::word_to_str`: `String::from_utf8(bytes)` with the lossy
decoding as fallback (`unwrap_or_else(... from_utf8_lossy ...)`). -/
def word_to_str (w : Word) : Str :=
  match utf8DecodeStrict (truncBytes w) with
  | some cs => cs
  | none => utf8Lossy (truncBytes w)

example : str_to_word (strOf "ab") = some [7017171169396654080, 0, 0, 2] := by
  simp [str_to_word, strBytes, strOf, utf8EncodeChar, u64FromBe, feltNew, feltP,
    List.range_succ]
example : word_to_str [7017171169396654080, 0, 0, 2] = strOf "ab" := by
  simp [word_to_str, truncBytes, u64ToBe, feltAsInt, feltP, List.range_succ,
    utf8DecodeStrict, utf8Decode1, strOf]
example : word_to_str [0, 0, 0, 0] = [] := by
  simp [word_to_str, truncBytes, u64ToBe, feltAsInt, feltP, List.range_succ, utf8DecodeStrict]

theorem utf8Decode1_ascii (b : Nat) (rest : List Nat) (h : b < 0x80) :
    utf8Decode1 b rest = some (b, 0) := by
  unfold utf8Decode1; rw [if_pos h]

theorem utf8Decode1_two (b b1 : Nat) (rest : List Nat)
    (h : 0xC2 ≤ b ∧ b ≤ 0xDF) (hc : 0x80 ≤ b1 ∧ b1 ≤ 0xBF) :
    utf8Decode1 b (b1 :: rest) = some ((b - 0xC0) * 64 + (b1 - 0x80), 1) := by
  unfold utf8Decode1
  rw [if_neg (by omega), if_pos h]
  simp only []
  rw [if_pos hc]

theorem utf8Decode1_three (b b1 b2 : Nat) (rest : List Nat)
    (h : 0xE0 ≤ b ∧ b ≤ 0xEF) (hc1 : cont3ok b b1) (hc2 : 0x80 ≤ b2 ∧ b2 ≤ 0xBF) :
    utf8Decode1 b (b1 :: b2 :: rest) =
      some ((b - 0xE0) * 4096 + (b1 - 0x80) * 64 + (b2 - 0x80), 2) := by
  unfold utf8Decode1
  rw [if_neg (by omega), if_neg (by omega), if_pos h]
  simp only []
  rw [if_pos ⟨hc1, hc2⟩]

theorem utf8Decode1_four (b b1 b2 b3 : Nat) (rest : List Nat)
    (h : 0xF0 ≤ b ∧ b ≤ 0xF4) (hc1 : cont4ok b b1)
    (hc2 : 0x80 ≤ b2 ∧ b2 ≤ 0xBF) (hc3 : 0x80 ≤ b3 ∧ b3 ≤ 0xBF) :
    utf8Decode1 b (b1 :: b2 :: b3 :: rest) =
      some ((b - 0xF0) * 262144 + (b1 - 0x80) * 4096 + (b2 - 0x80) * 64 + (b3 - 0x80), 3) := by
  unfold utf8Decode1
  rw [if_neg (by omega), if_neg (by omega), if_neg (by omega), if_pos h]
  simp only []
  rw [if_pos ⟨hc1, hc2.1, hc2.2, hc3⟩]

theorem utf8EncodeChar_le (n : Nat) (h : n < 0x110000) :
    ∀ b ∈ utf8EncodeChar n, b ≤ 244 := by
  intro b hb
  unfold utf8EncodeChar at hb
  split_ifs at hb <;> simp at hb <;> omega

theorem utf8DecodeStrict_encode (n : Nat) (h : ScalarOk n) (rest : List Nat) :
    utf8DecodeStrict (utf8EncodeChar n ++ rest) =
      (utf8DecodeStrict rest).map (fun cs => n :: cs) := by
  unfold ScalarOk at h
  by_cases h1 : n < 0x80
  · have e1 : utf8EncodeChar n = [n] := by
      unfold utf8EncodeChar; rw [if_pos h1]
    rw [e1]
    show utf8DecodeStrict (n :: rest) = _
    rw [utf8DecodeStrict, utf8Decode1_ascii n rest h1]
    simp
  · by_cases h2 : n < 0x800
    · have e1 : utf8EncodeChar n = [0xC0 + n / 64, 0x80 + n % 64] := by
        unfold utf8EncodeChar; rw [if_neg h1, if_pos h2]
      rw [e1]
      show utf8DecodeStrict ((0xC0 + n / 64) :: (0x80 + n % 64) :: rest) = _
      rw [utf8DecodeStrict, utf8Decode1_two _ _ _ (by omega) (by omega)]
      simp only [List.drop_succ_cons, List.drop_zero]
      simp only [show (0xC0 + n / 64 - 0xC0) * 64 + (0x80 + n % 64 - 0x80) = n from by omega]
    · by_cases h3 : n < 0x10000
      · have e1 : utf8EncodeChar n =
            [0xE0 + n / 4096, 0x80 + n / 64 % 64, 0x80 + n % 64] := by
          unfold utf8EncodeChar; rw [if_neg h1, if_neg h2, if_pos h3]
        rw [e1]
        show utf8DecodeStrict
            ((0xE0 + n / 4096) :: (0x80 + n / 64 % 64) :: (0x80 + n % 64) :: rest) = _
        rw [utf8DecodeStrict,
          utf8Decode1_three _ _ _ _ (by omega) (by unfold cont3ok; omega) (by omega)]
        simp only [List.drop_succ_cons, List.drop_zero]
        simp only [show (0xE0 + n / 4096 - 0xE0) * 4096 + (0x80 + n / 64 % 64 - 0x80) * 64 +
          (0x80 + n % 64 - 0x80) = n from by omega]
      · have e1 : utf8EncodeChar n =
            [0xF0 + n / 262144, 0x80 + n / 4096 % 64, 0x80 + n / 64 % 64, 0x80 + n % 64] := by
          unfold utf8EncodeChar; rw [if_neg h1, if_neg h2, if_neg h3]
        rw [e1]
        show utf8DecodeStrict
            ((0xF0 + n / 262144) :: (0x80 + n / 4096 % 64) :: (0x80 + n / 64 % 64) ::
              (0x80 + n % 64) :: rest) = _
        rw [utf8DecodeStrict,
          utf8Decode1_four _ _ _ _ _ (by omega) (by unfold cont4ok; omega) (by omega) (by omega)]
        simp only [List.drop_succ_cons, List.drop_zero]
        simp only [show (0xF0 + n / 262144 - 0xF0) * 262144 + (0x80 + n / 4096 % 64 - 0x80) * 4096 +
          (0x80 + n / 64 % 64 - 0x80) * 64 + (0x80 + n % 64 - 0x80) = n from by omega]

theorem utf8DecodeStrict_strBytes (s : Str) (h : WFStr s) :
    utf8DecodeStrict (strBytes s) = some s := by
  induction s with
  | nil => simp [strBytes, utf8DecodeStrict]
  | cons c cs ih =>
    have hc : ScalarOk c := h c (List.mem_cons_self _ _)
    have hcs : WFStr cs := fun v hv => h v (List.mem_cons_of_mem _ hv)
    show utf8DecodeStrict (utf8EncodeChar c ++ strBytes cs) = _
    rw [utf8DecodeStrict_encode c hc, ih hcs]
    rfl

theorem utf8Lossy_replacement (bs : List Nat) (h : utf8DecodeStrict bs = none) :
    0xFFFD ∈ utf8Lossy bs := by
  match bs with
  | [] => rw [utf8DecodeStrict] at h; exact absurd h (by simp)
  | b :: rest =>
    rw [utf8DecodeStrict] at h
    rw [utf8Lossy]
    cases hd : utf8Decode1 b rest with
    | none =>
      exact List.mem_cons_self _ _
    | some ck =>
      obtain ⟨c, k⟩ := ck
      rw [hd] at h
      simp only [Option.map_eq_none'] at h
      exact List.mem_cons_of_mem _ (utf8Lossy_replacement (rest.drop k) h)
termination_by bs.length
decreasing_by simp; omega

theorem exists8 (c : List Nat) (h : c.length = 8) :
    ∃ a0 a1 a2 a3 a4 a5 a6 a7, c = [a0, a1, a2, a3, a4, a5, a6, a7] := by
  rcases c with _ | ⟨a0, c⟩
  · simp at h
  rcases c with _ | ⟨a1, c⟩
  · simp at h
  rcases c with _ | ⟨a2, c⟩
  · simp at h
  rcases c with _ | ⟨a3, c⟩
  · simp at h
  rcases c with _ | ⟨a4, c⟩
  · simp at h
  rcases c with _ | ⟨a5, c⟩
  · simp at h
  rcases c with _ | ⟨a6, c⟩
  · simp at h
  rcases c with _ | ⟨a7, c⟩
  · simp at h
  rcases c with _ | ⟨a8, c⟩
  · exact ⟨a0, a1, a2, a3, a4, a5, a6, a7, rfl⟩
  · simp at h

theorem u64ToBe_u64FromBe (l : List Nat) (h8 : l.length = 8) (hb : ∀ x ∈ l, x ≤ 244) :
    u64ToBe (u64FromBe l) = l := by
  obtain ⟨a0, a1, a2, a3, a4, a5, a6, a7, rfl⟩ := exists8 l h8
  have g0 := hb a0 (by simp)
  have g1 := hb a1 (by simp)
  have g2 := hb a2 (by simp)
  have g3 := hb a3 (by simp)
  have g4 := hb a4 (by simp)
  have g5 := hb a5 (by simp)
  have g6 := hb a6 (by simp)
  have g7 := hb a7 (by simp)
  simp only [u64FromBe, List.foldl, u64ToBe, List.cons.injEq, and_true]
  refine ⟨?_, ?_, ?_, ?_, ?_, ?_, ?_, ?_⟩ <;> omega

theorem u64FromBe_lt_feltP (l : List Nat) (h8 : l.length = 8) (hb : ∀ x ∈ l, x ≤ 244) :
    u64FromBe l < feltP := by
  obtain ⟨a0, a1, a2, a3, a4, a5, a6, a7, rfl⟩ := exists8 l h8
  have g0 := hb a0 (by simp)
  have g1 := hb a1 (by simp)
  have g2 := hb a2 (by simp)
  have g3 := hb a3 (by simp)
  have g4 := hb a4 (by simp)
  have g5 := hb a5 (by simp)
  have g6 := hb a6 (by simp)
  have g7 := hb a7 (by simp)
  simp only [u64FromBe, List.foldl, feltP]
  omega

theorem truncBytes_four (w0 w1 w2 w3 : Nat) :
    truncBytes [w0, w1, w2, w3] =
      (u64ToBe (feltAsInt w0) ++ u64ToBe (feltAsInt w1) ++ u64ToBe (feltAsInt w2) ++
        u64ToBe (feltAsInt w3)).take ((u64ToBe (feltAsInt w3)).getD 7 0) := by
  simp only [truncBytes]
  rw [show (List.range 4) = [0, 1, 2, 3] from rfl]
  simp [List.append_assoc]

theorem truncBytes_pack (bs : List Nat) (hlen : bs.length ≤ 24)
    (hbound : ∀ b ∈ bs, b ≤ 244) :
    truncBytes ((List.range 4).map fun i =>
      feltNew (u64FromBe
        (((bs ++ List.replicate (31 - bs.length) 0 ++ [bs.length % 256]).drop (i * 8)).take 8)))
      = bs := by
  set n := bs.length with hn
  set padded := bs ++ List.replicate (31 - n) 0 ++ [n % 256] with hpad
  have hplen : padded.length = 32 := by
    rw [hpad]; simp; omega
  have hpbound : ∀ b ∈ padded, b ≤ 244 := by
    intro b hb
    rw [hpad] at hb
    simp only [List.mem_append, List.mem_replicate, List.mem_singleton] at hb
    rcases hb with (hb | hb) | hb
    · exact hbound b hb
    · omega
    · omega
  have hmem : ∀ k, ∀ x ∈ (padded.drop k).take 8, x ≤ 244 := by
    intro k x hx
    exact hpbound x (List.drop_subset k padded (List.take_subset 8 _ hx))
  have hlen8 : ∀ k, k + 8 ≤ 32 → ((padded.drop k).take 8).length = 8 := by
    intro k hk
    simp [List.length_take, List.length_drop, hplen]
    omega
  have hdrop24 : padded.drop 24 = [0, 0, 0, 0, 0, 0, 0, n % 256] := by
    rw [hpad, List.append_assoc]
    rw [show (24 : Nat) = bs.length + (24 - n) from by omega, List.drop_append]
    rw [List.drop_append_of_le_length (by simp; omega), List.drop_replicate]
    rw [show 31 - n - (24 - n) = 7 from by omega]
    rfl
  have hc3 : (padded.drop 24).take 8 = [0, 0, 0, 0, 0, 0, 0, n % 256] := by
    rw [hdrop24]
    exact List.take_of_length_le (by simp)
  have hval3 : u64FromBe ((padded.drop 24).take 8) = n % 256 := by
    rw [hc3]
    simp only [u64FromBe, List.foldl]
    omega
  have hv0 : u64FromBe (padded.take 8) < feltP := by
    have := u64FromBe_lt_feltP ((padded.drop 0).take 8) (hlen8 0 (by omega)) (hmem 0)
    simpa using this
  have hv1 : u64FromBe ((padded.drop 8).take 8) < feltP :=
    u64FromBe_lt_feltP _ (hlen8 8 (by omega)) (hmem 8)
  have hv2 : u64FromBe ((padded.drop 16).take 8) < feltP :=
    u64FromBe_lt_feltP _ (hlen8 16 (by omega)) (hmem 16)
  have hv3 : u64FromBe ((padded.drop 24).take 8) < feltP := by
    rw [hval3]; unfold feltP; omega
  have hu0 : u64ToBe (u64FromBe (padded.take 8)) = padded.take 8 := by
    have := u64ToBe_u64FromBe ((padded.drop 0).take 8) (hlen8 0 (by omega)) (hmem 0)
    simpa using this
  have hu1 : u64ToBe (u64FromBe ((padded.drop 8).take 8)) = (padded.drop 8).take 8 :=
    u64ToBe_u64FromBe _ (hlen8 8 (by omega)) (hmem 8)
  have hu2 : u64ToBe (u64FromBe ((padded.drop 16).take 8)) = (padded.drop 16).take 8 :=
    u64ToBe_u64FromBe _ (hlen8 16 (by omega)) (hmem 16)
  have hu3 : u64ToBe (n % 256) = [0, 0, 0, 0, 0, 0, 0, n % 256] := by
    simp only [u64ToBe, List.cons.injEq, and_true]
    refine ⟨?_, ?_, ?_, ?_, ?_, ?_, ?_, ?_⟩ <;> omega
  have hsplit : padded.take 8 ++ (padded.drop 8).take 8 ++ (padded.drop 16).take 8 ++
      (padded.drop 24).take 8 = padded := by
    have t1 : padded.take 16 = padded.take 8 ++ (padded.drop 8).take 8 := by
      have := List.take_add padded 8 8; norm_num at this; exact this
    have t2 : padded.take 24 = padded.take 16 ++ (padded.drop 16).take 8 := by
      have := List.take_add padded 16 8; norm_num at this; exact this
    have t3 : padded.take 32 = padded.take 24 ++ (padded.drop 24).take 8 := by
      have := List.take_add padded 24 8; norm_num at this; exact this
    have t4 : padded.take 32 = padded := List.take_of_length_le (by omega)
    rw [← t1, ← t2, ← t3, t4]
  have hmap : (List.range 4).map (fun i =>
      feltNew (u64FromBe ((padded.drop (i * 8)).take 8))) =
      [feltNew (u64FromBe (padded.take 8)), feltNew (u64FromBe ((padded.drop 8).take 8)),
       feltNew (u64FromBe ((padded.drop 16).take 8)),
       feltNew (u64FromBe ((padded.drop 24).take 8))] := by
    simp [List.range_succ]
  rw [hmap, truncBytes_four]
  have ha0 : feltAsInt (feltNew (u64FromBe (padded.take 8))) = u64FromBe (padded.take 8) := by
    unfold feltAsInt feltNew
    rw [Nat.mod_eq_of_lt hv0, Nat.mod_eq_of_lt hv0]
  have ha1 : feltAsInt (feltNew (u64FromBe ((padded.drop 8).take 8))) =
      u64FromBe ((padded.drop 8).take 8) := by
    unfold feltAsInt feltNew
    rw [Nat.mod_eq_of_lt hv1, Nat.mod_eq_of_lt hv1]
  have ha2 : feltAsInt (feltNew (u64FromBe ((padded.drop 16).take 8))) =
      u64FromBe ((padded.drop 16).take 8) := by
    unfold feltAsInt feltNew
    rw [Nat.mod_eq_of_lt hv2, Nat.mod_eq_of_lt hv2]
  have ha3 : feltAsInt (feltNew (u64FromBe ((padded.drop 24).take 8))) = n % 256 := by
    unfold feltAsInt feltNew
    rw [Nat.mod_eq_of_lt hv3, Nat.mod_eq_of_lt hv3, hval3]
  rw [ha0, ha1, ha2, ha3, hu0, hu1, hu2, hu3]
  rw [show ([0, 0, 0, 0, 0, 0, 0, n % 256] : List Nat).getD 7 0 = n % 256 from rfl]
  rw [show ([0, 0, 0, 0, 0, 0, 0, n % 256] : List Nat) = (padded.drop 24).take 8 from hc3.symm]
  rw [hsplit]
  rw [show n % 256 = bs.length from by omega]
  rw [hpad, List.append_assoc, List.take_left]

theorem str_to_word_eq (s : Str) (h : byteLen s ≤ 24) :
    str_to_word s = some ((List.range 4).map fun i =>
      feltNew (u64FromBe
        (((strBytes s ++ List.replicate (31 - (strBytes s).length) 0 ++
          [(strBytes s).length % 256]).drop (i * 8)).take 8))) := by
  unfold byteLen at h
  simp only [str_to_word]
  rw [if_pos h]

theorem strBytes_le (s : Str) (hwf : WFStr s) : ∀ b ∈ strBytes s, b ≤ 244 := by
  intro b hb
  simp only [strBytes, List.mem_flatMap] at hb
  obtain ⟨c, hc, hbc⟩ := hb
  have hcs := hwf c hc
  exact utf8EncodeChar_le c (by unfold ScalarOk at hcs; omega) b hbc

/-- C1: for every string `s` whose UTF-8 byte length is at most 24, decoding
the word produced by encoding `s` returns `s`:
`word_to_str (str_to_word s) = s`. -/
theorem c1_encode_decode_roundtrip (s : Str) (hwf : WFStr s) (hlen : byteLen s ≤ 24) :
    ∃ w, str_to_word s = some w ∧ word_to_str w = s := by
  refine ⟨_, str_to_word_eq s hlen, ?_⟩
  unfold word_to_str
  rw [truncBytes_pack (strBytes s) (by unfold byteLen at hlen; exact hlen) (strBytes_le s hwf)]
  rw [utf8DecodeStrict_strBytes s hwf]

/-- C1 witness: a concrete 24-byte string (18 ASCII digits and two three-byte
CJK characters) satisfies the hypotheses and round-trips. -/
theorem c1_encode_decode_roundtrip_witness :
    WFStr (strOf "123456789012345678世界") ∧ byteLen (strOf "123456789012345678世界") ≤ 24 ∧
      ∃ w, str_to_word (strOf "123456789012345678世界") = some w ∧
        word_to_str w = strOf "123456789012345678世界" :=
  ⟨by decide, by decide,
    c1_encode_decode_roundtrip (strOf "123456789012345678世界") (by decide) (by decide)⟩

/-- C6: encoding fails (the length assertion) exactly when the UTF-8 byte
length exceeds 24; for byte length at most 24 it returns a word. -/
theorem c6_encode_length_contract (s : Str) :
    (24 < byteLen s → str_to_word s = none) ∧
    (byteLen s ≤ 24 → ∃ w, str_to_word s = some w) := by
  constructor
  · intro h
    simp only [str_to_word]
    rw [if_neg (by unfold byteLen at h; omega)]
  · intro h
    exact ⟨_, str_to_word_eq s h⟩

/-- C6 witness: a 25-byte ASCII string fails to encode; a 2-byte string
encodes successfully. -/
theorem c6_encode_length_contract_witness :
    (24 < byteLen (strOf "aaaaaaaaaaaaaaaaaaaaaaaaa") ∧
      str_to_word (strOf "aaaaaaaaaaaaaaaaaaaaaaaaa") = none) ∧
    (byteLen (strOf "ab") ≤ 24 ∧ ∃ w, str_to_word (strOf "ab") = some w) :=
  ⟨⟨by decide, (c6_encode_length_contract (strOf "aaaaaaaaaaaaaaaaaaaaaaaaa")).1 (by decide)⟩,
   ⟨by decide, (c6_encode_length_contract (strOf "ab")).2 (by decide)⟩⟩

/-- C8: `word_to_str` never fails: on a word whose truncated byte content is
not valid UTF-8 it returns the lossy decoding, which contains the
replacement character U+FFFD. -/
theorem c8_decode_lossy_fallback (w : Word)
    (h : utf8DecodeStrict (truncBytes w) = none) :
    word_to_str w = utf8Lossy (truncBytes w) ∧ 0xFFFD ∈ word_to_str w := by
  have e : word_to_str w = utf8Lossy (truncBytes w) := by
    unfold word_to_str
    rw [h]
  exact ⟨e, e ▸ utf8Lossy_replacement _ h⟩

/-- C8 witness: the word whose first field element is `0x80 << 56` and whose
length byte is 1 has byte content `[0x80]`, which is invalid UTF-8. -/
theorem c8_decode_lossy_fallback_witness :
    utf8DecodeStrict (truncBytes [9223372036854775808, 0, 0, 1]) = none ∧
      (word_to_str [9223372036854775808, 0, 0, 1] =
          utf8Lossy (truncBytes [9223372036854775808, 0, 0, 1]) ∧
        0xFFFD ∈ word_to_str [9223372036854775808, 0, 0, 1]) :=
  ⟨by simp [truncBytes, u64ToBe, feltAsInt, feltP, List.range_succ, utf8DecodeStrict,
      utf8Decode1],
   c8_decode_lossy_fallback _ (by simp [truncBytes, u64ToBe, feltAsInt, feltP,
      List.range_succ, utf8DecodeStrict, utf8Decode1])⟩

/-- `error.rs::AppError`. The `Database` variant is the one constructed by
`handler.rs` and `db.rs` for store-level failures and the
"already registered" conflict (the enum declaration in `error.rs` omits
it, but every use site in the handlers names `AppError::Database`). -/
inductive AppError where
  | NotFound (msg : Str)
  | BadRequest (msg : Str)
  | Internal (msg : Str)
  | Database (msg : Str)
deriving DecidableEq

/-- `handler.rs::User`: a cached Record `{name, address, version}`. -/
structure User where
  name : Str
  address : Str
  version : Str
deriving DecidableEq

/-- `handler.rs::LookupResponse`. -/
structure LookupResponse where
  address : Str
  version : Str
deriving DecidableEq

/-- `handler.rs::RegisterResponse`. -/
structure RegisterResponse where
  name : Str
  address : Str
  version : Str
  transaction_id : Option Str
deriving DecidableEq

/-- The query parameters the handlers read ("name", "address", "version");
a missing key yields the empty string via `unwrap_or_default`. -/
structure Params where
  name : Option Str
  address : Option Str
  version : Option Str
deriving DecidableEq

/-- A handler outcome: a `200 OK` JSON payload or an `AppError` response
(`impl IntoResponse for AppError`); also used for `Result<T>` values. -/
inductive HResult (α : Type) where
  | ok (a : α)
  | err (e : AppError)
deriving DecidableEq

/-- Whether a result is the `ok` variant. -/
def HResult.isOk {α : Type} : HResult α → Bool
  | .ok _ => true
  | .err _ => false

/-- A `ClientRequest` enqueued on the Ledger Gateway channel
(`handler.rs`); outcomes record successfully enqueued requests in order. -/
inductive SentReq where
  | lookupReq (params : Params)
  | registerReq (params : Params)
deriving DecidableEq

/-- Outcomes of the external calls `lookup_handler` makes: the Cache Store
lookup result, whether the gateway channel accepted the send, and the
oneshot reply (`none` models `rx.await` failing because the reply sender
was dropped). -/
structure LookupEnv where
  dbLookup : HResult (Option User)
  sendOk : Bool
  reply : Option (HResult LookupResponse)

/-- `handler.rs::lookup_handler` over the external-call outcomes: the
response plus the list of gateway requests enqueued. -/
def lookup_handler (p : Params) (env : LookupEnv) :
    HResult LookupResponse × List SentReq :=
  let name := p.name.getD []
  if name = [] then (.err (.BadRequest (strOf "Name parameter is required")), [])
  else
    match env.dbLookup with
    | .ok (some user) => (.ok ⟨user.address, user.version⟩, [])
    | _ =>
      if env.sendOk then
        match env.reply with
        | some (.ok r) => (.ok r, [.lookupReq p])
        | some (.err e) => (.err e, [.lookupReq p])
        | none => (.err (.Internal (strOf "Failed to receive response")), [.lookupReq p])
      else (.err (.Internal (strOf "Failed to process request")), [])

/-- Outcomes of the external calls `register_handler` makes: the duplicate
checks (cache lookup; gateway send and reply of the ledger-tier lookup)
and the dispatch stage (cache insert; gateway send and reply of the
ledger register). -/
structure RegisterEnv where
  dbLookup : HResult (Option User)
  dupSendOk : Bool
  dupReply : Option (HResult LookupResponse)
  dbInsert : HResult Unit
  regSendOk : Bool
  regReply : Option (HResult RegisterResponse)

/-- The version dispatch at the end of `handler.rs::register_handler`,
reached after both duplicate checks passed: the response, the gateway
requests enqueued at this stage, and the Records written to the Cache
Store (a write is recorded when `insert_user` succeeded). -/
def register_dispatch (p : Params) (env : RegisterEnv) :
    HResult RegisterResponse × List SentReq × List User :=
  let name := p.name.getD []
  let address := p.address.getD []
  let version := p.version.getD []
  if version = strOf "2" then
    match env.dbInsert with
    | .err _ => (.err (.Database (strOf "Failed to save user to database")), [], [])
    | .ok _ => (.ok ⟨name, address, version, none⟩, [], [⟨name, address, version⟩])
  else if version = strOf "2.5" then
    if env.regSendOk then
      match env.regReply with
      | some (.ok r) => (.ok r, [.registerReq p], [])
      | some (.err e) => (.err e, [.registerReq p], [])
      | none => (.err (.Internal (strOf "Failed to receive response")), [.registerReq p], [])
    else (.err (.Internal (strOf "Failed to process request")), [], [])
  else
    (.err (.BadRequest (strOf "The server can only process Web2 or Web2.5 requests")), [], [])

/-- `handler.rs::register_handler` over the external-call outcomes:
required-field validation, cache-tier duplicate check, ledger-tier
duplicate check (any failure of which falls through), then the version
dispatch. -/
def register_handler (p : Params) (env : RegisterEnv) :
    HResult RegisterResponse × List SentReq × List User :=
  let name := p.name.getD []
  let address := p.address.getD []
  let version := p.version.getD []
  if name = [] then (.err (.BadRequest (strOf "Name parameter is required")), [], [])
  else if address = [] then
    (.err (.BadRequest (strOf "Address parameter is required")), [], [])
  else if version = [] then
    (.err (.BadRequest (strOf "Version parameter is required")), [], [])
  else
    match env.dbLookup with
    | .ok (some _) => (.err (.Database (strOf "User has already been registered.")), [], [])
    | _ =>
      if env.dupSendOk then
        match env.dupReply with
        | some (.ok _) =>
          (.err (.Database (strOf "User has already been registered.")), [.lookupReq p], [])
        | _ =>
          let d := register_dispatch p env
          (d.1, .lookupReq p :: d.2.1, d.2.2)
      else register_dispatch p env

example :
    lookup_handler ⟨some [97], none, none⟩ ⟨.ok (some ⟨[97], [98], strOf "2"⟩), true, none⟩ =
      (.ok ⟨[98], strOf "2"⟩, []) := by decide
example :
    (register_handler ⟨some [97], some [98], some (strOf "2")⟩
      ⟨.ok none, true, some (.err (.NotFound [])), .ok (), true, none⟩).1 =
      .ok ⟨[97], [98], strOf "2", none⟩ := by decide

/-- The Unicode White_Space code points, as tested by Rust
`char::is_whitespace` (used by `str::trim` in `service.rs::lookup`). -/
def isRustWhitespace (n : Nat) : Prop :=
  n = 0x09 ∨ n = 0x0A ∨ n = 0x0B ∨ n = 0x0C ∨ n = 0x0D ∨ n = 0x20 ∨
  n = 0x85 ∨ n = 0xA0 ∨ n = 0x1680 ∨ (0x2000 ≤ n ∧ n ≤ 0x200A) ∨
  n = 0x2028 ∨ n = 0x2029 ∨ n = 0x202F ∨ n = 0x205F ∨ n = 0x3000

instance (n : Nat) : Decidable (isRustWhitespace n) := by
  unfold isRustWhitespace; infer_instance

/-- Rust `str::trim`: strip whitespace characters from both ends. -/
def rustTrim (s : Str) : Str :=
  ((s.dropWhile fun v => decide (isRustWhitespace v)).reverse.dropWhile
    fun v => decide (isRustWhitespace v)).reverse

example : rustTrim (strOf "  a b ") = strOf "a b" := by decide
example : rustTrim [0x20, 0x20] = [] := by decide

/-- The word-stack interpretation at the end of `service.rs::lookup`
(lines 178-205): a stack of fewer than 4 elements is `NotFound`; otherwise
the first four elements are reversed into a word and decoded, and a
decoded address that trims to empty or equals the 16-character string
"0000000000000000" is `NotFound`; otherwise the address is returned with
version "2.5". -/
def interpretStack (name : Str) (stack : List Nat) : HResult LookupResponse :=
  if stack.length < 4 then
    .err (.NotFound (strOf "Name '" ++ name ++ strOf "' not found or returned invalid data"))
  else
    let address := word_to_str [stack.getD 3 0, stack.getD 2 0, stack.getD 1 0, stack.getD 0 0]
    if rustTrim address = [] ∨ address = strOf "0000000000000000" then
      .err (.NotFound (strOf "Name '" ++ name ++ strOf "' not registered"))
    else
      .ok ⟨address, strOf "2.5"⟩

/-- The outcomes of the opaque client calls made by `service.rs::lookup`:
each `some e` is the failing step's error string; `stack` is the word
stack returned by `execute_program` when `execErr` is `none`. -/
structure LookupLedgerEnv where
  syncErr : Option Str
  libErr : Option Str
  attachErr : Option Str
  compileErr : Option Str
  execErr : Option Str
  stack : List Nat

/-- `service.rs::lookup` as a function of the opaque client-call outcomes.
`none` models a panic inside the gateway worker (the `str_to_word` length
assertion), which drops the reply channel unanswered. -/
def service_lookup (name : Str) (env : LookupLedgerEnv) :
    Option (HResult LookupResponse) :=
  if name = [] then some (.err (.BadRequest (strOf "Name cannot be empty")))
  else
    match env.syncErr with
    | some e => some (.err (.Internal (strOf "Failed to sync blockchain state: " ++ e)))
    | none =>
      match env.libErr with
      | some e => some (.err (.Internal (strOf "Contract compilation error: " ++ e)))
      | none =>
        match str_to_word name with
        | none => none
        | some _ =>
          match env.attachErr with
          | some e => some (.err (.Internal (strOf "Script compilation error: " ++ e)))
          | none =>
            match env.compileErr with
            | some e => some (.err (.Internal (strOf "Transaction script error: " ++ e)))
            | none =>
              match env.execErr with
              | some e => some (.err (.Internal (strOf "Program execution failed: " ++ e)))
              | none => some (interpretStack name env.stack)

/-- The outcomes of the opaque client calls made by `service.rs::register`;
`txId` is the transaction identifier of the executed transaction. -/
structure RegisterLedgerEnv where
  syncErr : Option Str
  libErr : Option Str
  attachErr : Option Str
  compileErr : Option Str
  buildErr : Option Str
  execErr : Option Str
  submitErr : Option Str
  txId : Str

/-- `service.rs::register` as a function of the opaque client-call
outcomes: on success the response carries version "2.5" and the
ledger-assigned transaction identifier. `none` models the `str_to_word`
assertion panic (name first, then address, as in the source). -/
def service_register (name address : Str) (env : RegisterLedgerEnv) :
    Option (HResult RegisterResponse) :=
  if name = [] then some (.err (.BadRequest (strOf "Name cannot be empty")))
  else if address = [] then some (.err (.BadRequest (strOf "Address cannot be empty")))
  else
    match env.syncErr with
    | some e => some (.err (.Internal (strOf "Failed to sync blockchain state: " ++ e)))
    | none =>
      match env.libErr with
      | some e => some (.err (.Internal (strOf "Contract compilation error: " ++ e)))
      | none =>
        match str_to_word name, str_to_word address with
        | none, _ => none
        | _, none => none
        | some _, some _ =>
          match env.attachErr with
          | some e => some (.err (.Internal (strOf "Script compilation error: " ++ e)))
          | none =>
            match env.compileErr with
            | some e => some (.err (.Internal (strOf "Transaction script error: " ++ e)))
            | none =>
              match env.buildErr with
              | some e => some (.err (.Internal (strOf "Transaction request error: " ++ e)))
              | none =>
                match env.execErr with
                | some e =>
                  some (.err (.Internal (strOf "Transaction execution failed: " ++ e)))
                | none =>
                  match env.submitErr with
                  | some e =>
                    some (.err (.Internal (strOf "Transaction submission failed: " ++ e)))
                  | none => some (.ok ⟨name, address, strOf "2.5", some env.txId⟩)

/-- `db.rs::lookup_user` as a pure lookup on the stored rows (the `name`
column is unique, `find?` returns the row when present). -/
def lookup_user (rows : List User) (name : Str) : Option User :=
  rows.find? fun u => decide (u.name = name)

/-- `db.rs::insert_user`: `INSERT OR REPLACE` keyed on the unique name. -/
def insert_user (rows : List User) (u : User) : List User :=
  u :: rows.filter fun v => decide (v.name ≠ u.name)

/-- Modelled from the spec: the ledger contract (`masm/mns.masm`, which is
not among the repository sources under `src/`) binds names to addresses;
a Register transaction "binds them on the ledger" (§4.3). -/
def ledgerBind (l : List (Str × Str)) (name address : Str) : List (Str × Str) :=
  (name, address) :: l.filter fun x => decide (x.1 ≠ name)

/-- Modelled from the spec: the address bound to a name on the ledger. -/
def ledgerFind (l : List (Str × Str)) (name : Str) : Option Str :=
  (l.find? fun x => decide (x.1 = name)).map fun x => x.2

/-- Modelled from the spec: the gateway's reply to a Lookup PendingRequest
against ledger contents `l` — the bound address tagged version "2.5", or
`NotFound` when the name is not registered (§4.3 and the stack
interpretation of `service.rs::lookup`). -/
def ledgerLookupReply (l : List (Str × Str)) (name : Str) : HResult LookupResponse :=
  match ledgerFind l name with
  | some address => .ok ⟨address, strOf "2.5"⟩
  | none => .err (.NotFound (strOf "Name '" ++ name ++ strOf "' not registered"))

/-- The two persistent tiers: the Cache Store rows and the ledger's
name→address bindings. -/
structure SysState where
  cache : List User
  ledger : List (Str × Str)

/-- The register environment induced by a system state on the happy path:
the store answers, the gateway channel is up and its worker replies, and
ledger transactions succeed (transaction identifier "tx"). -/
def envOfState (st : SysState) (p : Params) : RegisterEnv :=
  { dbLookup := .ok (lookup_user st.cache (p.name.getD []))
    dupSendOk := true
    dupReply := some (ledgerLookupReply st.ledger (p.name.getD []))
    dbInsert := .ok ()
    regSendOk := true
    regReply := some (.ok ⟨p.name.getD [], p.address.getD [], strOf "2.5", some (strOf "tx")⟩) }

/-- One full register call against a system state (handler, stores and
gateway composed): the response and the next state. The cache gains the
written Records; the ledger is updated exactly when a Register request was
enqueued and the call succeeded. -/
def sys_register (st : SysState) (p : Params) :
    HResult RegisterResponse × SysState :=
  let out := register_handler p (envOfState st p)
  let cache2 := out.2.2.foldl insert_user st.cache
  let ledger2 :=
    if SentReq.registerReq p ∈ out.2.1 ∧ out.1.isOk = true then
      ledgerBind st.ledger (p.name.getD []) (p.address.getD [])
    else st.ledger
  (out.1, ⟨cache2, ledger2⟩)

/-- C2 counterexample: the claim quantifies over every name, but for the
empty name (name parameter missing or empty) the handler returns
`BadRequest` even when the Cache Store holds a Record for that name, and
does not return the Record's address/version. -/
theorem c2_counterexample :
    lookup_handler ⟨some [], none, none⟩
        ⟨.ok (some ⟨[], [97], strOf "2"⟩), true, none⟩ =
      (.err (.BadRequest (strOf "Name parameter is required")), []) ∧
    (lookup_handler ⟨some [], none, none⟩
        ⟨.ok (some ⟨[], [97], strOf "2"⟩), true, none⟩).1 ≠
      .ok ⟨[97], strOf "2"⟩ := by
  constructor
  · decide
  · decide

/-- C2 (amended): for every non-empty name, a Cache Store hit makes
`lookup` return that Record's address and version, with no gateway
request enqueued. -/
theorem c2_cache_hit_short_circuit (p : Params) (env : LookupEnv) (u : User)
    (hname : p.name.getD [] ≠ [])
    (hdb : env.dbLookup = .ok (some u)) :
    lookup_handler p env = (.ok ⟨u.address, u.version⟩, []) := by
  simp only [lookup_handler]
  rw [if_neg hname, hdb]

/-- C2 witness: a concrete cache hit. -/
theorem c2_cache_hit_short_circuit_witness :
    (⟨some [97], none, none⟩ : Params).name.getD [] ≠ [] ∧
    lookup_handler ⟨some [97], none, none⟩
        ⟨.ok (some ⟨[97], [98], strOf "2"⟩), true, none⟩ =
      (.ok ⟨[98], strOf "2"⟩, []) :=
  ⟨by decide, c2_cache_hit_short_circuit _ _ _ (by decide) rfl⟩

theorem interpretStack_ok (name : Str) (stack : List Nat) (r : LookupResponse)
    (h : interpretStack name stack = .ok r) :
    r.version = strOf "2.5" ∧
    r.address =
      word_to_str [stack.getD 3 0, stack.getD 2 0, stack.getD 1 0, stack.getD 0 0] := by
  unfold interpretStack at h
  split at h
  · simp at h
  · simp only [] at h
    split at h
    · simp at h
    · injection h with h3
      subst h3
      exact ⟨rfl, rfl⟩

theorem service_lookup_ok_version (name : Str) (lenv : LookupLedgerEnv) (r : LookupResponse)
    (h : service_lookup name lenv = some (.ok r)) : r.version = strOf "2.5" := by
  unfold service_lookup at h
  split_ifs at h
  · simp at h
  · split at h
    · simp at h
    · split at h
      · simp at h
      · split at h
        · simp at h
        · split at h
          · simp at h
          · split at h
            · simp at h
            · split at h
              · simp at h
              · simp only [Option.some.injEq] at h
                exact (interpretStack_ok _ _ _ h).1

/-- C3: on a cache miss (record absent or store error) with the gateway
channel accepting the request, `lookup_handler` enqueues exactly one Lookup
request on the gateway, returns a successful reply unchanged, propagates
an error reply unchanged (no synthesized fallback), and returns `Internal`
when the reply channel dies; and every successful gateway lookup reply
carries version "2.5". -/
theorem c3_lookup_fallback (p : Params) (env : LookupEnv)
    (hname : p.name.getD [] ≠ [])
    (hmiss : env.dbLookup = .ok none ∨ ∃ e, env.dbLookup = .err e)
    (hsend : env.sendOk = true) :
    (lookup_handler p env).2 = [.lookupReq p] ∧
    (∀ r, env.reply = some (.ok r) → (lookup_handler p env).1 = .ok r) ∧
    (∀ e, env.reply = some (.err e) → (lookup_handler p env).1 = .err e) ∧
    (env.reply = none →
      (lookup_handler p env).1 = .err (.Internal (strOf "Failed to receive response"))) ∧
    (∀ name2 lenv r, service_lookup name2 lenv = some (.ok r) → r.version = strOf "2.5") := by
  have hbody : lookup_handler p env =
      (match env.reply with
        | some (.ok r) => (.ok r, [.lookupReq p])
        | some (.err e) => (.err e, [.lookupReq p])
        | none => (.err (.Internal (strOf "Failed to receive response")), [.lookupReq p])) := by
    simp only [lookup_handler]
    rw [if_neg hname]
    rcases hmiss with h | ⟨e, h⟩ <;> rw [h, hsend] <;> rfl
  refine ⟨?_, ?_, ?_, ?_, fun name2 lenv r h => service_lookup_ok_version name2 lenv r h⟩
  · rw [hbody]
    cases hr : env.reply with
    | none => rfl
    | some v => cases v <;> rfl
  · intro r hr
    rw [hbody, hr]
  · intro e hr
    rw [hbody, hr]
  · intro hr
    rw [hbody, hr]

/-- C3 witness: a concrete cache miss with a successful ledger reply
produced by `service_lookup` on a stack bearing the address "ab". -/
theorem c3_lookup_fallback_witness :
    (⟨some [97], none, none⟩ : Params).name.getD [] ≠ [] ∧
    ((⟨.ok none, true,
        some (.ok ⟨strOf "ab", strOf "2.5"⟩)⟩ : LookupEnv).dbLookup = .ok none ∨
      ∃ e, (⟨.ok none, true, some (.ok ⟨strOf "ab", strOf "2.5"⟩)⟩ : LookupEnv).dbLookup =
        .err e) ∧
    (lookup_handler ⟨some [97], none, none⟩
        ⟨.ok none, true, some (.ok ⟨strOf "ab", strOf "2.5"⟩)⟩).2 =
      [.lookupReq ⟨some [97], none, none⟩] ∧
    (lookup_handler ⟨some [97], none, none⟩
        ⟨.ok none, true, some (.ok ⟨strOf "ab", strOf "2.5"⟩)⟩).1 =
      .ok ⟨strOf "ab", strOf "2.5"⟩ := by
  have h := c3_lookup_fallback ⟨some [97], none, none⟩
    ⟨.ok none, true, some (.ok ⟨strOf "ab", strOf "2.5"⟩)⟩
    (by decide) (Or.inl rfl) rfl
  exact ⟨by decide, Or.inl rfl, h.1, h.2.1 _ rfl⟩

/-- C7 counterexample: the stack `[1, 0, 0, 0x2000000000000000]` decodes to
the one-character address " " (a space), which is neither empty nor the
all-zero string, yet the lookup fails with `NotFound` because the source
tests `address.trim().is_empty()`, not emptiness. -/
theorem c7_counterexample :
    word_to_str [2305843009213693952, 0, 0, 1] = [0x20] ∧
    word_to_str [2305843009213693952, 0, 0, 1] ≠ [] ∧
    word_to_str [2305843009213693952, 0, 0, 1] ≠ strOf "0000000000000000" ∧
    interpretStack [97] [1, 0, 0, 2305843009213693952] =
      .err (.NotFound (strOf "Name '" ++ [97] ++ strOf "' not registered")) := by
  have hw : word_to_str [2305843009213693952, 0, 0, 1] = [0x20] := by
    simp [word_to_str, truncBytes, u64ToBe, feltAsInt, feltP, List.range_succ,
      utf8DecodeStrict, utf8Decode1]
  refine ⟨hw, by rw [hw]; decide, by rw [hw]; decide, ?_⟩
  unfold interpretStack
  rw [if_neg (by decide)]
  simp only []
  rw [show ([1, 0, 0, 2305843009213693952] : List Nat).getD 3 0 = 2305843009213693952
      from rfl,
    show ([1, 0, 0, 2305843009213693952] : List Nat).getD 2 0 = 0 from rfl,
    show ([1, 0, 0, 2305843009213693952] : List Nat).getD 1 0 = 0 from rfl,
    show ([1, 0, 0, 2305843009213693952] : List Nat).getD 0 0 = 1 from rfl, hw]
  rw [if_pos (by left; decide)]

/-- C7 (amended): the ledger lookup's stack interpretation: fewer than 4
stack elements fails with `NotFound`; otherwise the first four elements
are reversed and decoded, and an address that is whitespace-blank (empty
after trimming) or equal to the 16-character string "0000000000000000"
fails with `NotFound`; any other address is returned with version
"2.5". -/
theorem c7_stack_interpretation (name : Str) (stack : List Nat) :
    (stack.length < 4 →
      interpretStack name stack =
        .err (.NotFound
          (strOf "Name '" ++ name ++ strOf "' not found or returned invalid data"))) ∧
    (4 ≤ stack.length →
      (rustTrim (word_to_str
            [stack.getD 3 0, stack.getD 2 0, stack.getD 1 0, stack.getD 0 0]) = [] ∨
          word_to_str [stack.getD 3 0, stack.getD 2 0, stack.getD 1 0, stack.getD 0 0] =
            strOf "0000000000000000" →
        interpretStack name stack =
          .err (.NotFound (strOf "Name '" ++ name ++ strOf "' not registered"))) ∧
      (¬(rustTrim (word_to_str
            [stack.getD 3 0, stack.getD 2 0, stack.getD 1 0, stack.getD 0 0]) = [] ∨
          word_to_str [stack.getD 3 0, stack.getD 2 0, stack.getD 1 0, stack.getD 0 0] =
            strOf "0000000000000000") →
        interpretStack name stack =
          .ok ⟨word_to_str [stack.getD 3 0, stack.getD 2 0, stack.getD 1 0, stack.getD 0 0],
            strOf "2.5"⟩)) := by
  refine ⟨?_, ?_⟩
  · intro h
    unfold interpretStack
    rw [if_pos h]
  · intro h
    constructor
    · intro hz
      unfold interpretStack
      rw [if_neg (by omega)]
      simp only []
      rw [if_pos hz]
    · intro hz
      unfold interpretStack
      rw [if_neg (by omega)]
      simp only []
      rw [if_neg hz]

/-- C7 witness: a short stack fails with `NotFound`, and a stack bearing
the address "ab" succeeds with version "2.5". -/
theorem c7_stack_interpretation_witness :
    (([] : List Nat).length < 4 ∧
      interpretStack [97] [] =
        .err (.NotFound
          (strOf "Name '" ++ [97] ++ strOf "' not found or returned invalid data"))) ∧
    (4 ≤ ([2, 0, 0, 7017171169396654080] : List Nat).length ∧
      interpretStack [97] [2, 0, 0, 7017171169396654080] =
        .ok ⟨strOf "ab", strOf "2.5"⟩) := by
  have hw : word_to_str [7017171169396654080, 0, 0, 2] = strOf "ab" := by
    simp [word_to_str, truncBytes, u64ToBe, feltAsInt, feltP, List.range_succ,
      utf8DecodeStrict, utf8Decode1, strOf]
  have h1 := (c7_stack_interpretation [97] []).1 (by decide)
  have h2 := ((c7_stack_interpretation [97] [2, 0, 0, 7017171169396654080]).2 (by decide)).2
  refine ⟨⟨by decide, h1⟩, ⟨by decide, ?_⟩⟩
  rw [show ([2, 0, 0, 7017171169396654080] : List Nat).getD 3 0 = 7017171169396654080
      from rfl,
    show ([2, 0, 0, 7017171169396654080] : List Nat).getD 2 0 = 0 from rfl,
    show ([2, 0, 0, 7017171169396654080] : List Nat).getD 1 0 = 0 from rfl,
    show ([2, 0, 0, 7017171169396654080] : List Nat).getD 0 0 = 2 from rfl, hw] at h2
  exact h2 (by decide)

/-- C5: after both duplicate checks pass, `register` dispatches on the
version string: "2" writes the Record to the Cache Store and returns the
stored fields without a transaction identifier and without a gateway
request; "2.5" enqueues exactly one Register request, returns the
gateway's successful reply, and writes nothing to the Cache Store; any
other version fails with `BadRequest`; and a successful
`service.rs::register` reply carries the ledger-assigned transaction
identifier and version "2.5". -/
theorem c5_version_dispatch :
    (∀ (p : Params) (env : RegisterEnv),
      p.version.getD [] = strOf "2" → env.dbInsert = .ok () →
      register_dispatch p env =
        (.ok ⟨p.name.getD [], p.address.getD [], strOf "2", none⟩, [],
          [⟨p.name.getD [], p.address.getD [], strOf "2"⟩])) ∧
    (∀ (p : Params) (env : RegisterEnv) (r : RegisterResponse),
      p.version.getD [] = strOf "2.5" → env.regSendOk = true →
      env.regReply = some (.ok r) →
      register_dispatch p env = (.ok r, [.registerReq p], [])) ∧
    (∀ (p : Params) (env : RegisterEnv),
      p.version.getD [] ≠ strOf "2" → p.version.getD [] ≠ strOf "2.5" →
      register_dispatch p env =
        (.err (.BadRequest (strOf "The server can only process Web2 or Web2.5 requests")),
          [], [])) ∧
    (∀ (name address : Str) (renv : RegisterLedgerEnv) (r : RegisterResponse),
      service_register name address renv = some (.ok r) →
      r.transaction_id = some renv.txId ∧ r.version = strOf "2.5") := by
  refine ⟨?_, ?_, ?_, ?_⟩
  · intro p env hv hins
    simp only [register_dispatch]
    rw [hv, if_pos rfl, hins]
  · intro p env r hv hsend hrep
    simp only [register_dispatch]
    rw [hv, if_neg (by decide), if_pos rfl, hsend, hrep]
    rfl
  · intro p env h2 h25
    simp only [register_dispatch]
    rw [if_neg h2, if_neg h25]
  · intro name address renv r h
    unfold service_register at h
    split_ifs at h
    · simp at h
    · simp at h
    · split at h
      · simp at h
      · split at h
        · simp at h
        · split at h
          · simp at h
          · simp at h
          · split at h
            · simp at h
            · split at h
              · simp at h
              · split at h
                · simp at h
                · split at h
                  · simp at h
                  · split at h
                    · simp at h
                    · simp only [Option.some.injEq] at h
                      injection h with h3
                      subst h3
                      exact ⟨rfl, rfl⟩

/-- C5 witness: concrete dispatches for versions "2", "2.5" and "3", and a
successful ledger register reply. -/
theorem c5_version_dispatch_witness :
    register_dispatch ⟨some [97], some [98], some (strOf "2")⟩
        ⟨.ok none, true, none, .ok (), true, none⟩ =
      (.ok ⟨[97], [98], strOf "2", none⟩, [], [⟨[97], [98], strOf "2"⟩]) ∧
    register_dispatch ⟨some [97], some [98], some (strOf "2.5")⟩
        ⟨.ok none, true, none, .ok (), true,
          some (.ok ⟨[97], [98], strOf "2.5", some (strOf "tx")⟩)⟩ =
      (.ok ⟨[97], [98], strOf "2.5", some (strOf "tx")⟩,
        [.registerReq ⟨some [97], some [98], some (strOf "2.5")⟩], []) ∧
    register_dispatch ⟨some [97], some [98], some (strOf "3")⟩
        ⟨.ok none, true, none, .ok (), true, none⟩ =
      (.err (.BadRequest (strOf "The server can only process Web2 or Web2.5 requests")),
        [], []) ∧
    service_register [97] [98]
        ⟨none, none, none, none, none, none, none, strOf "tx"⟩ =
      some (.ok ⟨[97], [98], strOf "2.5", some (strOf "tx")⟩) := by
  have h1 := c5_version_dispatch.1 ⟨some [97], some [98], some (strOf "2")⟩
    ⟨.ok none, true, none, .ok (), true, none⟩ (by decide) rfl
  have h2 := c5_version_dispatch.2.1 ⟨some [97], some [98], some (strOf "2.5")⟩
    ⟨.ok none, true, none, .ok (), true,
      some (.ok ⟨[97], [98], strOf "2.5", some (strOf "tx")⟩)⟩
    ⟨[97], [98], strOf "2.5", some (strOf "tx")⟩ (by decide) rfl rfl
  have h3 := c5_version_dispatch.2.2.1 ⟨some [97], some [98], some (strOf "3")⟩
    ⟨.ok none, true, none, .ok (), true, none⟩ (by decide) (by decide)
  exact ⟨h1, h2, h3, by decide⟩

/-- C10: in `register_handler`, every duplicate-check failure is silently
treated as "name not yet registered": a Cache Store error behaves exactly
like a cache miss; a failed gateway send, a dead reply channel, and an
error reply from the ledger lookup (Internal as much as NotFound) all
fall through to the version dispatch, surfacing no error. -/
theorem c10_duplicate_check_failures (p : Params) (env : RegisterEnv) :
    (∀ e, register_handler p { env with dbLookup := .err e } =
      register_handler p { env with dbLookup := .ok none }) ∧
    (p.name.getD [] ≠ [] → p.address.getD [] ≠ [] → p.version.getD [] ≠ [] →
      (env.dbLookup = .ok none ∨ ∃ e, env.dbLookup = .err e) →
      ((env.dupSendOk = false → register_handler p env = register_dispatch p env) ∧
       (env.dupSendOk = true → env.dupReply = none →
        register_handler p env =
          ((register_dispatch p env).1, .lookupReq p :: (register_dispatch p env).2.1,
            (register_dispatch p env).2.2)) ∧
       (∀ e, env.dupSendOk = true → env.dupReply = some (.err e) →
        register_handler p env =
          ((register_dispatch p env).1, .lookupReq p :: (register_dispatch p env).2.1,
            (register_dispatch p env).2.2)))) := by
  constructor
  · intro e
    simp only [register_handler]
    split_ifs <;> rfl
  · intro hn ha hv hmiss
    refine ⟨?_, ?_, ?_⟩
    · intro hsend
      simp only [register_handler]
      rw [if_neg hn, if_neg ha, if_neg hv]
      rcases hmiss with h | ⟨e2, h⟩ <;> rw [h, hsend] <;> rfl
    · intro hsend hrep
      simp only [register_handler]
      rw [if_neg hn, if_neg ha, if_neg hv]
      rcases hmiss with h | ⟨e2, h⟩ <;> rw [h, hsend, hrep] <;> rfl
    · intro e hsend hrep
      simp only [register_handler]
      rw [if_neg hn, if_neg ha, if_neg hv]
      rcases hmiss with h | ⟨e2, h⟩ <;> rw [h, hsend, hrep] <;> rfl

/-- C10 witness: a concrete store-error register that proceeds to a
successful version-"2" dispatch. -/
theorem c10_duplicate_check_failures_witness :
    register_handler ⟨some [97], some [98], some (strOf "2")⟩
        ⟨.err (.Database (strOf "locked")), true, none, .ok (), true, none⟩ =
      register_handler ⟨some [97], some [98], some (strOf "2")⟩
        ⟨.ok none, true, none, .ok (), true, none⟩ ∧
    register_handler ⟨some [97], some [98], some (strOf "2")⟩
        ⟨.ok none, true, some (.err (.Internal (strOf "down"))), .ok (), true, none⟩ =
      ((register_dispatch ⟨some [97], some [98], some (strOf "2")⟩
          ⟨.ok none, true, some (.err (.Internal (strOf "down"))), .ok (), true, none⟩).1,
        .lookupReq ⟨some [97], some [98], some (strOf "2")⟩ ::
          (register_dispatch ⟨some [97], some [98], some (strOf "2")⟩
            ⟨.ok none, true, some (.err (.Internal (strOf "down"))), .ok (), true, none⟩).2.1,
        (register_dispatch ⟨some [97], some [98], some (strOf "2")⟩
          ⟨.ok none, true, some (.err (.Internal (strOf "down"))), .ok (), true, none⟩).2.2) := by
  constructor
  · exact (c10_duplicate_check_failures ⟨some [97], some [98], some (strOf "2")⟩
      ⟨.ok none, true, none, .ok (), true, none⟩).1 (.Database (strOf "locked"))
  · exact ((c10_duplicate_check_failures ⟨some [97], some [98], some (strOf "2")⟩
      ⟨.ok none, true, some (.err (.Internal (strOf "down"))), .ok (), true, none⟩).2
      (by decide) (by decide) (by decide) (Or.inl rfl)).2.2 (.Internal (strOf "down")) rfl rfl

theorem lookup_user_insert_self (rows : List User) (u : User) :
    lookup_user (insert_user rows u) u.name = some u := by
  unfold lookup_user insert_user
  rw [List.find?_cons_of_pos _ (by simp)]

theorem ledgerFind_bind_self (l : List (Str × Str)) (name address : Str) :
    ledgerFind (ledgerBind l name address) name = some address := by
  unfold ledgerFind ledgerBind
  rw [List.find?_cons_of_pos _ (by simp)]
  rfl

/-- C4: `register` fails with the "User has already been registered."
`Database`-variant (conflict) error whenever the name is already bound:
a cache hit fails before any gateway request is enqueued; a successful
ledger-tier lookup fails after the single duplicate-check Lookup request;
and, over the composed system state, registering the same name twice
(version "2" or "2.5") succeeds once and fails with that conflict error
on the second attempt. -/
theorem c4_register_conflict :
    (∀ (p : Params) (env : RegisterEnv) (u : User),
      p.name.getD [] ≠ [] → p.address.getD [] ≠ [] → p.version.getD [] ≠ [] →
      env.dbLookup = .ok (some u) →
      register_handler p env =
        (.err (.Database (strOf "User has already been registered.")), [], [])) ∧
    (∀ (p : Params) (env : RegisterEnv) (r : LookupResponse),
      p.name.getD [] ≠ [] → p.address.getD [] ≠ [] → p.version.getD [] ≠ [] →
      (env.dbLookup = .ok none ∨ ∃ e, env.dbLookup = .err e) →
      env.dupSendOk = true → env.dupReply = some (.ok r) →
      register_handler p env =
        (.err (.Database (strOf "User has already been registered.")), [.lookupReq p], [])) ∧
    (∀ (st : SysState) (p : Params),
      p.name.getD [] ≠ [] → p.address.getD [] ≠ [] →
      (p.version.getD [] = strOf "2" ∨ p.version.getD [] = strOf "2.5") →
      lookup_user st.cache (p.name.getD []) = none →
      ledgerFind st.ledger (p.name.getD []) = none →
      (sys_register st p).1.isOk = true ∧
      (sys_register (sys_register st p).2 p).1 =
        .err (.Database (strOf "User has already been registered."))) := by
  refine ⟨?_, ?_, ?_⟩
  · intro p env u hn ha hv hdb
    simp only [register_handler]
    rw [if_neg hn, if_neg ha, if_neg hv, hdb]
  · intro p env r hn ha hv hmiss hsend hrep
    simp only [register_handler]
    rw [if_neg hn, if_neg ha, if_neg hv]
    rcases hmiss with h | ⟨e, h⟩ <;> rw [h, hsend, hrep] <;> rfl
  · intro st p hn ha hv hc hl
    have hne : p.version.getD [] ≠ [] := by
      rcases hv with h | h <;> rw [h] <;> decide
    have henvdb : (envOfState st p).dbLookup = .ok none := by
      simp [envOfState, hc]
    have henvrep : (envOfState st p).dupReply =
        some (.err (.NotFound
          (strOf "Name '" ++ p.name.getD [] ++ strOf "' not registered"))) := by
      simp [envOfState, ledgerLookupReply, hl]
    rcases hv with h2 | h25
    · -- version "2": the first call writes the Record to the cache
      have hout : register_handler p (envOfState st p) =
          (.ok ⟨p.name.getD [], p.address.getD [], strOf "2", none⟩, [.lookupReq p],
            [⟨p.name.getD [], p.address.getD [], strOf "2"⟩]) := by
        simp only [register_handler, register_dispatch]
        rw [if_neg hn, if_neg ha, if_neg hne, henvdb]
        rw [show (envOfState st p).dupSendOk = true from rfl, henvrep]
        rw [h2, if_pos rfl]
        rw [show (envOfState st p).dbInsert = .ok () from rfl]
        rfl
      have hsys1 : sys_register st p =
          (.ok ⟨p.name.getD [], p.address.getD [], strOf "2", none⟩,
            ⟨insert_user st.cache ⟨p.name.getD [], p.address.getD [], strOf "2"⟩,
              st.ledger⟩) := by
        simp only [sys_register, hout]
        rw [if_neg (by simp)]
        rfl
      have hdb2 : lookup_user
          (insert_user st.cache ⟨p.name.getD [], p.address.getD [], strOf "2"⟩)
          (p.name.getD []) = some ⟨p.name.getD [], p.address.getD [], strOf "2"⟩ :=
        lookup_user_insert_self st.cache ⟨p.name.getD [], p.address.getD [], strOf "2"⟩
      have hconf : register_handler p (envOfState
          ⟨insert_user st.cache ⟨p.name.getD [], p.address.getD [], strOf "2"⟩,
            st.ledger⟩ p) =
          (.err (.Database (strOf "User has already been registered.")), [], []) := by
        simp only [register_handler]
        rw [if_neg hn, if_neg ha, if_neg hne]
        rw [show (envOfState
          ⟨insert_user st.cache ⟨p.name.getD [], p.address.getD [], strOf "2"⟩,
            st.ledger⟩ p).dbLookup =
          .ok (some ⟨p.name.getD [], p.address.getD [], strOf "2"⟩) from by
            simp [envOfState, hdb2]]
      constructor
      · rw [hsys1]; rfl
      · rw [hsys1]
        simp only [sys_register, hconf]
    · -- version "2.5": the first call binds the name on the ledger
      have hout : register_handler p (envOfState st p) =
          (.ok ⟨p.name.getD [], p.address.getD [], strOf "2.5", some (strOf "tx")⟩,
            [.lookupReq p, .registerReq p], []) := by
        simp only [register_handler, register_dispatch]
        rw [if_neg hn, if_neg ha, if_neg hne, henvdb]
        rw [show (envOfState st p).dupSendOk = true from rfl, henvrep]
        rw [h25]
        rw [if_neg (show ¬(strOf "2.5" = strOf "2") from by decide)]
        rw [if_pos (show strOf "2.5" = strOf "2.5" from rfl)]
        rw [show (envOfState st p).regSendOk = true from rfl]
        rw [show (envOfState st p).regReply =
          some (.ok ⟨p.name.getD [], p.address.getD [], strOf "2.5", some (strOf "tx")⟩)
          from rfl]
        rfl
      have hsys1 : sys_register st p =
          (.ok ⟨p.name.getD [], p.address.getD [], strOf "2.5", some (strOf "tx")⟩,
            ⟨st.cache, ledgerBind st.ledger (p.name.getD []) (p.address.getD [])⟩) := by
        simp only [sys_register, hout]
        rw [if_pos (by simp [HResult.isOk])]
        rfl
      have hrep2 : ledgerLookupReply
          (ledgerBind st.ledger (p.name.getD []) (p.address.getD [])) (p.name.getD []) =
          .ok ⟨p.address.getD [], strOf "2.5"⟩ := by
        unfold ledgerLookupReply
        rw [ledgerFind_bind_self]
      have hconf : register_handler p (envOfState
          ⟨st.cache, ledgerBind st.ledger (p.name.getD []) (p.address.getD [])⟩ p) =
          (.err (.Database (strOf "User has already been registered.")), [.lookupReq p],
            []) := by
        simp only [register_handler]
        rw [if_neg hn, if_neg ha, if_neg hne]
        rw [show (envOfState
          ⟨st.cache, ledgerBind st.ledger (p.name.getD []) (p.address.getD [])⟩ p).dbLookup =
          .ok none from by simp [envOfState, hc]]
        rw [show (envOfState
          ⟨st.cache, ledgerBind st.ledger (p.name.getD []) (p.address.getD [])⟩
            p).dupSendOk = true from rfl]
        rw [show (envOfState
          ⟨st.cache, ledgerBind st.ledger (p.name.getD []) (p.address.getD [])⟩
            p).dupReply = some (.ok ⟨p.address.getD [], strOf "2.5"⟩) from by
          simp [envOfState, hrep2]]
        rfl
      constructor
      · rw [hsys1]; rfl
      · rw [hsys1]
        simp only [sys_register, hconf]

/-- C4 witness: from the empty system state, registering "a" → "b" under
version "2" succeeds and an identical second attempt fails with the
conflict error. -/
theorem c4_register_conflict_witness :
    (sys_register ⟨[], []⟩ ⟨some [97], some [98], some (strOf "2")⟩).1.isOk = true ∧
    (sys_register (sys_register ⟨[], []⟩ ⟨some [97], some [98], some (strOf "2")⟩).2
        ⟨some [97], some [98], some (strOf "2")⟩).1 =
      .err (.Database (strOf "User has already been registered.")) :=
  c4_register_conflict.2.2 ⟨[], []⟩ ⟨some [97], some [98], some (strOf "2")⟩
    (by decide) (by decide) (Or.inl rfl) rfl rfl
